import Mathlib

/-!
Shallow embedding of the `easygp_risk` clinical decision-support engine.

The repository file `src/easygp_risk/src/types.rs` declares the data model
(`Feature`, `Condition`, `SymptomFact`, `ContinuousSymptom`,
`PatientObservation`, `Recommendation`, `DiagnosisResult`); the inference
engine itself (feature encoder, likelihood model, aggregator, softmax
normalizer, recommendation policy, explanation builder) is not present in
the sources, so those operations are modelled from the design document's
words. Rust `f32` values flowing through the engine are modelled as exact
rationals (for the computable pipeline) and real numbers (for the softmax),
with a dedicated type recording the finite / non-finite distinction that
the encoder's validation checks.
-/

/-- Symptom features, in the declaration order of `types.rs` (Fever first,
Tics last). -/
inductive Feature where
  | Fever
  | SwollenGlands
  | Exudate
  | Cough
  | Rash
  | SoreThroat
  | Rhinorrhea
  | Headache
  | TonsilSwelling
  | LymphNodes
  | Tenderness
  | Onset
  | PANDAS
  | Irritability
  | Tics
deriving DecidableEq, Fintype, Repr

/-- Candidate conditions, in the declaration order of `types.rs`
(ViralPharyngitis first, CommonCold last). -/
inductive Condition where
  | ViralPharyngitis
  | StrepThroat
  | InfectiousMono
  | ScarletFever
  | Covid19
  | AllergicRhinitis
  | Influenza
  | CommonCold
deriving DecidableEq, Fintype, Repr

/-- Declaration ordinal of a `Feature` (0 = Fever, ..., 14 = Tics). -/
def Feature.ord : Feature → Nat
  | .Fever => 0
  | .SwollenGlands => 1
  | .Exudate => 2
  | .Cough => 3
  | .Rash => 4
  | .SoreThroat => 5
  | .Rhinorrhea => 6
  | .Headache => 7
  | .TonsilSwelling => 8
  | .LymphNodes => 9
  | .Tenderness => 10
  | .Onset => 11
  | .PANDAS => 12
  | .Irritability => 13
  | .Tics => 14

/-- The features in declaration order. -/
def Feature.list : List Feature :=
  [.Fever, .SwollenGlands, .Exudate, .Cough, .Rash, .SoreThroat, .Rhinorrhea,
   .Headache, .TonsilSwelling, .LymphNodes, .Tenderness, .Onset, .PANDAS,
   .Irritability, .Tics]

/-- Declaration ordinal of a `Condition` (0 = ViralPharyngitis, ...,
7 = CommonCold). -/
def Condition.ord : Condition → Nat
  | .ViralPharyngitis => 0
  | .StrepThroat => 1
  | .InfectiousMono => 2
  | .ScarletFever => 3
  | .Covid19 => 4
  | .AllergicRhinitis => 5
  | .Influenza => 6
  | .CommonCold => 7

/-- The conditions in declaration order. -/
def Condition.list : List Condition :=
  [.ViralPharyngitis, .StrepThroat, .InfectiousMono, .ScarletFever, .Covid19,
   .AllergicRhinitis, .Influenza, .CommonCold]

/-- A Rust `f32` as it matters to the engine: either a finite value
(modelled as an exact rational) or one of the non-finite values the
encoder must reject. -/
inductive FloatVal where
  | finite (q : ℚ)
  | nan
  | posInf
  | negInf
deriving DecidableEq

/-- Whether the float value is finite. -/
def FloatVal.isFinite : FloatVal → Bool
  | .finite _ => true
  | _ => false

/-- The rational carried by a finite float value (0 for non-finite ones,
which the validated pipeline never reads). -/
def FloatVal.toRat : FloatVal → ℚ
  | .finite q => q
  | _ => 0

/-- Binary symptom fact (`SymptomFact` in `types.rs`). -/
structure SymptomFact where
  feature : Feature
  present : Bool
deriving DecidableEq

/-- Continuous symptom value (`ContinuousSymptom` in `types.rs`). -/
structure ContinuousSymptom where
  feature : Feature
  value : FloatVal
deriving DecidableEq

/-- Complete patient observation (`PatientObservation` in `types.rs`);
`age` is a Rust `u8`, modelled as `Fin 256`. -/
structure PatientObservation where
  age : Fin 256
  contact_history : Bool
  discrete_symptoms : List SymptomFact
  continuous_symptoms : List ContinuousSymptom

/-- Recommendation outcomes (`Recommendation` in `types.rs`). -/
inductive Recommendation where
  | TestForStrep
  | PrescribeAntibiotics
  | Watchful
  | ConsiderAlternatives
  | ReferSpecialist
deriving DecidableEq

/-- Complete differential diagnosis result (`DiagnosisResult` in
`types.rs`). The Rust maps are `HashMap<Condition, f32>`; a hash map binds
at most one value per key but need not bind every key, so each map is
modelled as a partial function `Condition → Option ℝ`. -/
structure DiagnosisResult where
  probabilities : Condition → Option ℝ
  log_odds : Condition → Option ℝ
  recommendation : Recommendation
  message : String
  explanation : String

/-- Reasons an observation is rejected. -/
inductive InvalidReason where
  | OutOfRange
  | NonFinite
  | DuplicateFeature
deriving DecidableEq

/-- Typed failure returned by the engine. -/
structure InvalidObservation where
  reason : InvalidReason
deriving DecidableEq

/-- Modelled from the spec: evidence values produced by the feature
encoder (the encoder's code is not in the repository sources). -/
inductive EvidenceValue where
  | present
  | absent
  | scalar (q : ℚ)
deriving DecidableEq

/-- An evidence set maps each feature to its observed evidence, `none`
meaning "not observed" (distinct from `absent`). -/
abbrev EvidenceSet := Feature → Option EvidenceValue

/-- Modelled from the spec: the likelihood model (its construction code is
not in the repository sources) — per-(feature, condition) contribution
weights, per-condition prior log-odds, and per-feature reference ranges
used to normalize continuous measurements. -/
structure LikelihoodModel where
  weight : Feature → Condition → ℚ
  prior : Condition → ℚ
  ranges : Feature → ℚ × ℚ

/-- Modelled from the spec: recommendation-policy thresholds (the policy
configuration is not in the repository sources). -/
structure PolicyConfig where
  high : ℝ
  test_low : ℝ
  test_high : ℝ
  low_floor : ℝ
  margin : ℝ
  referral : Condition → Option ℝ

/-- Modelled from the spec: clamp a raw continuous value to the feature's
reference range `[lo, hi]` and linearly rescale into `[0, 1]`. -/
def clampScale (lo hi v : ℚ) : ℚ :=
  if hi ≤ lo then 0 else (min hi (max lo v) - lo) / (hi - lo)

/-- Every feature mentioned by an observation, discrete list first. -/
def mentionedFeatures (o : PatientObservation) : List Feature :=
  o.discrete_symptoms.map (fun s => s.feature) ++
    o.continuous_symptoms.map (fun s => s.feature)

/-- Modelled from the spec: build the evidence set of a validated
observation — discrete facts give `present` / `absent`, continuous
symptoms give a clamped-and-rescaled scalar. -/
def buildEvidence (ranges : Feature → ℚ × ℚ) (o : PatientObservation) :
    EvidenceSet :=
  let d : EvidenceSet := o.discrete_symptoms.foldl
    (fun s fact => Function.update s fact.feature
      (some (if fact.present then EvidenceValue.present else EvidenceValue.absent)))
    (fun _ => none)
  o.continuous_symptoms.foldl
    (fun s cs => Function.update s cs.feature
      (some (EvidenceValue.scalar
        (clampScale (ranges cs.feature).1 (ranges cs.feature).2 cs.value.toRat))))
    d

/-- Modelled from the spec: the feature encoder
`encode(PatientObservation) -> EvidenceSet | fails(InvalidObservation)`
(its code is not in the repository sources). It rejects an age outside
`[0, 120]`, a non-finite continuous value, and a feature mentioned more
than once across the two symptom lists. -/
def encode (ranges : Feature → ℚ × ℚ) (o : PatientObservation) :
    Except InvalidObservation EvidenceSet :=
  if 120 < o.age.val then
    Except.error ⟨InvalidReason.OutOfRange⟩
  else if ¬ (∀ s ∈ o.continuous_symptoms, s.value.isFinite = true) then
    Except.error ⟨InvalidReason.NonFinite⟩
  else if ¬ (mentionedFeatures o).Nodup then
    Except.error ⟨InvalidReason.DuplicateFeature⟩
  else
    Except.ok (buildEvidence ranges o)

/-- Modelled from the spec: the contribution of one feature's evidence to
one condition — the table weight for `present`, its negation for `absent`
(symmetry simplification), the weight scaled by the normalized scalar for
continuous evidence, and 0 for an unobserved feature. -/
def contribution (m : LikelihoodModel) (f : Feature) (c : Condition) :
    Option EvidenceValue → ℚ
  | none => 0
  | some .present => m.weight f c
  | some .absent => -(m.weight f c)
  | some (.scalar q) => m.weight f c * q

/-- Modelled from the spec: the aggregator — prior log-odds plus the sum
of the observed features' contributions, folded in the declaration order
of `Feature`. -/
def aggregate (m : LikelihoodModel) (ev : EvidenceSet) (c : Condition) : ℚ :=
  Feature.list.foldl (fun acc f => acc + contribution m f c (ev f)) (m.prior c)

/-- Sum of a real-valued function over the eight conditions, iterated in
declaration order. -/
def condSum (g : Condition → ℝ) : ℝ :=
  (Condition.list.map g).sum

/-- Maximum of a real-valued function over the eight conditions. -/
noncomputable def condMax (g : Condition → ℝ) : ℝ :=
  Condition.list.foldl (fun a c => max a (g c)) (g Condition.ViralPharyngitis)

/-- Modelled from the spec: the normalizer (its code is not in the
repository sources) — a numerically stable softmax that subtracts the
maximum log-odds before exponentiating. -/
noncomputable def normalizeDist (x : Condition → ℝ) (c : Condition) : ℝ :=
  Real.exp (x c - condMax x) / condSum (fun d => Real.exp (x d - condMax x))

/-- Per-condition probabilities of a model on an evidence set: softmax of
the aggregated log-odds. -/
noncomputable def probs (m : LikelihoodModel) (ev : EvidenceSet) :
    Condition → ℝ :=
  normalizeDist (fun c => ((aggregate m ev c : ℚ) : ℝ))

/-- Modelled from the spec: the top-probability condition, ties broken by
declaration order (lowest ordinal wins). -/
noncomputable def topCondition (p : Condition → ℝ) : Condition :=
  (Condition.list.argmax p).getD Condition.ViralPharyngitis

/-- Modelled from the spec: the second-highest probability (the largest
probability among the conditions other than the top one; probabilities are
non-negative, so 0 is a neutral fold base). -/
noncomputable def secondProb (p : Condition → ℝ) : ℝ :=
  ((Condition.list.filter (fun c => c ≠ topCondition p)).map p).foldl max 0

open Classical in
/-- Modelled from the spec: the recommendation policy (its code is not in
the repository sources) — five rules evaluated top-down, the first match
winning, `Watchful` as the fallback. -/
noncomputable def recommend (cfg : PolicyConfig) (p : Condition → ℝ) :
    Recommendation :=
  if topCondition p = Condition.StrepThroat ∧ cfg.high ≤ p (topCondition p) then
    Recommendation.PrescribeAntibiotics
  else if cfg.test_low ≤ p Condition.StrepThroat ∧
      p Condition.StrepThroat < cfg.test_high then
    Recommendation.TestForStrep
  else if p (topCondition p) < cfg.low_floor ∧
      p (topCondition p) - secondProb p ≤ cfg.margin then
    Recommendation.ConsiderAlternatives
  else if ∃ c t, cfg.referral c = some t ∧ t < p c then
    Recommendation.ReferSpecialist
  else
    Recommendation.Watchful

/-- Display name of a feature, as rendered in explanations. -/
def featureName : Feature → String
  | .Fever => "Fever"
  | .SwollenGlands => "SwollenGlands"
  | .Exudate => "Exudate"
  | .Cough => "Cough"
  | .Rash => "Rash"
  | .SoreThroat => "SoreThroat"
  | .Rhinorrhea => "Rhinorrhea"
  | .Headache => "Headache"
  | .TonsilSwelling => "TonsilSwelling"
  | .LymphNodes => "LymphNodes"
  | .Tenderness => "Tenderness"
  | .Onset => "Onset"
  | .PANDAS => "PANDAS"
  | .Irritability => "Irritability"
  | .Tics => "Tics"

/-- Absolute contribution of a feature's evidence to the winning
condition, the explanation builder's ranking key. -/
def rankKey (m : LikelihoodModel) (ev : EvidenceSet) (w : Condition)
    (f : Feature) : ℚ :=
  |contribution m f w (ev f)|

/-- Ranking relation for the explanation builder: larger absolute
contribution to the winning condition first, ties broken by feature
declaration order. -/
def rankRel (m : LikelihoodModel) (ev : EvidenceSet) (w : Condition)
    (f g : Feature) : Prop :=
  rankKey m ev w g < rankKey m ev w f ∨
    (rankKey m ev w f = rankKey m ev w g ∧ Feature.ord f ≤ Feature.ord g)

instance (m : LikelihoodModel) (ev : EvidenceSet) (w : Condition) :
    DecidableRel (rankRel m ev w) := fun f g => by
  unfold rankRel; infer_instance

/-- Modelled from the spec: the explanation builder's feature list — the
observed features ranked by absolute contribution to the winning
condition, the top three kept, each tagged `true` for "supports" (its
contribution is non-negative) and `false` for "against". -/
def explainList (m : LikelihoodModel) (ev : EvidenceSet) (w : Condition) :
    List (Feature × Bool) :=
  let observed := Feature.list.filter (fun f => (ev f).isSome)
  let ranked := observed.insertionSort (rankRel m ev w)
  (ranked.take 3).map (fun f => (f, decide (0 ≤ contribution m f w (ev f))))

/-- Short templated sentence naming the recommendation. -/
def renderMessage : Recommendation → String
  | .TestForStrep => "Recommendation: perform a rapid strep test."
  | .PrescribeAntibiotics => "Recommendation: prescribe antibiotics."
  | .Watchful => "Recommendation: watchful waiting."
  | .ConsiderAlternatives => "Recommendation: consider alternative diagnoses."
  | .ReferSpecialist => "Recommendation: refer to a specialist."

/-- Render the ranked feature list as the explanation text. -/
def renderExplain (l : List (Feature × Bool)) : String :=
  l.foldl
    (fun s p =>
      s ++ " " ++ featureName p.1 ++
        (if p.2 then " supports the top condition;" else " argues against the top condition;"))
    "Top contributing features:"

/-- Modelled from the spec: assemble the diagnosis result from a validated
evidence set — the success path of `evaluate`. -/
noncomputable def mkResult (m : LikelihoodModel) (cfg : PolicyConfig)
    (ev : EvidenceSet) : DiagnosisResult :=
  { probabilities := fun c => some (probs m ev c)
    log_odds := fun c => some ((aggregate m ev c : ℚ) : ℝ)
    recommendation := recommend cfg (probs m ev)
    message := renderMessage (recommend cfg (probs m ev))
    explanation := renderExplain (explainList m ev (topCondition (probs m ev))) }

/-- Modelled from the spec: the engine's sole operation,
`evaluate(PatientObservation) -> Result<DiagnosisResult, InvalidObservation>`
(its code is not in the repository sources). -/
noncomputable def evaluate (m : LikelihoodModel) (cfg : PolicyConfig)
    (o : PatientObservation) : Except InvalidObservation DiagnosisResult :=
  match encode m.ranges o with
  | Except.error e => Except.error e
  | Except.ok ev => Except.ok (mkResult m cfg ev)


/-! Helper lemmas about list folds and sums over the conditions. -/

/-- A fold that keeps adding `g x` is the start value plus the mapped sum. -/
lemma foldl_add_eq {α : Type} (g : α → ℚ) :
    ∀ (l : List α) (a : ℚ),
      l.foldl (fun acc x => acc + g x) a = a + (l.map g).sum
  | [], a => by simp
  | x :: xs, a => by
    simp only [List.foldl_cons, List.map_cons, List.sum_cons]
    rw [foldl_add_eq g xs (a + g x)]
    ring

/-- Mapped sums agree when the functions agree on the list's members. -/
lemma sum_map_congr {α : Type} {F G : α → ℚ} :
    ∀ {l : List α}, (∀ x ∈ l, F x = G x) → (l.map F).sum = (l.map G).sum
  | [], _ => by simp
  | x :: xs, h => by
    simp only [List.map_cons, List.sum_cons]
    rw [h x (by simp), sum_map_congr (fun y hy => h y (by simp [hy]))]

/-- Entries outside the filter contribute nothing, so filtering them away
keeps the sum. -/
lemma sum_filter_zero {α : Type} (g : α → ℚ) (p : α → Bool) :
    ∀ (l : List α), (∀ x ∈ l, p x = false → g x = 0) →
      ((l.filter p).map g).sum = (l.map g).sum
  | [], _ => by simp
  | x :: xs, h => by
    by_cases hx : p x = true
    · simp only [List.filter_cons, hx, if_true, List.map_cons, List.sum_cons]
      rw [sum_filter_zero g p xs (fun y hy => h y (by simp [hy]))]
    · have hx0 : g x = 0 := h x (by simp) (by simpa using hx)
      have hfil : (x :: xs).filter p = xs.filter p := by
        simp [List.filter_cons, hx]
      rw [hfil, sum_filter_zero g p xs (fun y hy => h y (by simp [hy]))]
      simp [hx0]

/-- Changing a function at one member of a duplicate-free list changes the
mapped sum by exactly that member's change. -/
lemma sum_map_change_single {α : Type} [DecidableEq α] {f : α} {F G : α → ℚ} :
    ∀ {l : List α}, l.Nodup → f ∈ l → (∀ x, x ≠ f → F x = G x) →
      (l.map F).sum = (l.map G).sum + (F f - G f)
  | [], _, hf, _ => by simp at hf
  | x :: xs, hnd, hf, hsame => by
    rcases List.mem_cons.mp hf with hx | hx
    · subst hx
      have hnotin : f ∉ xs := (List.nodup_cons.mp hnd).1
      have htail : (xs.map F).sum = (xs.map G).sum :=
        sum_map_congr (fun y hy => hsame y (fun hyx => hnotin (hyx ▸ hy)))
      simp only [List.map_cons, List.sum_cons, htail]
      ring
    · have hxne : x ≠ f := fun hxy => (List.nodup_cons.mp hnd).1 (hxy ▸ hx)
      have := sum_map_change_single (List.nodup_cons.mp hnd).2 hx hsame
      simp only [List.map_cons, List.sum_cons, this, hsame x hxne]
      ring

/-- Unfolded form of `condSum`. -/
lemma condSum_unfold (g : Condition → ℝ) :
    condSum g = g .ViralPharyngitis + g .StrepThroat + g .InfectiousMono +
      g .ScarletFever + g .Covid19 + g .AllergicRhinitis + g .Influenza +
      g .CommonCold := by
  simp [condSum, Condition.list]
  ring

/-- A pointwise-positive function has positive `condSum`. -/
lemma condSum_pos {g : Condition → ℝ} (h : ∀ c, 0 < g c) : 0 < condSum g := by
  rw [condSum_unfold]
  have h1 := h .ViralPharyngitis
  have h2 := h .StrepThroat
  have h3 := h .InfectiousMono
  have h4 := h .ScarletFever
  have h5 := h .Covid19
  have h6 := h .AllergicRhinitis
  have h7 := h .Influenza
  have h8 := h .CommonCold
  linarith

/-- `condSum` is monotone in the summand. -/
lemma condSum_le {g1 g2 : Condition → ℝ} (h : ∀ c, g1 c ≤ g2 c) :
    condSum g1 ≤ condSum g2 := by
  rw [condSum_unfold, condSum_unfold]
  have h1 := h .ViralPharyngitis
  have h2 := h .StrepThroat
  have h3 := h .InfectiousMono
  have h4 := h .ScarletFever
  have h5 := h .Covid19
  have h6 := h .AllergicRhinitis
  have h7 := h .Influenza
  have h8 := h .CommonCold
  linarith

/-- Dividing each summand divides the `condSum`. -/
lemma condSum_div (g : Condition → ℝ) (a : ℝ) :
    condSum (fun c => g c / a) = condSum g / a := by
  rw [condSum_unfold, condSum_unfold]
  ring

/-- Scaling each summand scales the `condSum`. -/
lemma condSum_mul (g : Condition → ℝ) (a : ℝ) :
    condSum (fun c => a * g c) = a * condSum g := by
  rw [condSum_unfold, condSum_unfold]
  ring

/-! Softmax lemmas. -/

/-- The exponentials of shifted log-odds sum to something positive. -/
lemma condSum_exp_pos (x : Condition → ℝ) (M : ℝ) :
    0 < condSum (fun d => Real.exp (x d - M)) :=
  condSum_pos (fun _ => Real.exp_pos _)

/-- Subtracting the maximum before exponentiating does not change the
softmax: the stable form equals the plain form. -/
lemma normalizeDist_eq (x : Condition → ℝ) (c : Condition) :
    normalizeDist x c = Real.exp (x c) / condSum (fun d => Real.exp (x d)) := by
  have hS : 0 < condSum (fun d => Real.exp (x d)) :=
    condSum_pos (fun _ => Real.exp_pos _)
  have hM : Real.exp (condMax x) ≠ 0 := Real.exp_ne_zero _
  have hshift : (fun d => Real.exp (x d - condMax x)) =
      fun d => Real.exp (x d) / Real.exp (condMax x) := by
    funext d
    rw [Real.exp_sub]
  have hS0 : condSum (fun d => Real.exp (x d)) ≠ 0 := ne_of_gt hS
  rw [normalizeDist, hshift, condSum_div, Real.exp_sub]
  field_simp

/-- Softmax values are non-negative. -/
lemma normalizeDist_nonneg (x : Condition → ℝ) (c : Condition) :
    0 ≤ normalizeDist x c :=
  div_nonneg (Real.exp_nonneg _) (le_of_lt (condSum_exp_pos x (condMax x)))

/-- Softmax values are positive. -/
lemma normalizeDist_pos (x : Condition → ℝ) (c : Condition) :
    0 < normalizeDist x c :=
  div_pos (Real.exp_pos _) (condSum_exp_pos x (condMax x))

/-- Softmax values sum to exactly 1 over the eight conditions. -/
lemma normalizeDist_sum_one (x : Condition → ℝ) :
    condSum (normalizeDist x) = 1 := by
  have hS : 0 < condSum (fun d => Real.exp (x d - condMax x)) :=
    condSum_exp_pos x (condMax x)
  have h : condSum (normalizeDist x) =
      condSum (fun d => Real.exp (x d - condMax x)) /
        condSum (fun d => Real.exp (x d - condMax x)) := by
    rw [← condSum_div]
    rfl
  rw [h, div_self (ne_of_gt hS)]

/-- Shifting every log-odds entry by an amount that is largest at `C`
cannot lower the softmax probability of `C`. -/
lemma normalizeDist_mono (x d : Condition → ℝ) (C : Condition)
    (h : ∀ c, d c ≤ d C) :
    normalizeDist x C ≤ normalizeDist (fun c => x c + d c) C := by
  rw [normalizeDist_eq, normalizeDist_eq]
  have hS : 0 < condSum (fun c => Real.exp (x c)) :=
    condSum_pos (fun _ => Real.exp_pos _)
  have hS' : 0 < condSum (fun c => Real.exp (x c + d c)) :=
    condSum_pos (fun _ => Real.exp_pos _)
  rw [div_le_div_iff₀ hS hS']
  calc Real.exp (x C) * condSum (fun c => Real.exp (x c + d c))
      = condSum (fun c => Real.exp (x C) * Real.exp (x c + d c)) := by
        rw [condSum_mul]
    _ ≤ condSum (fun c => Real.exp (x C + d C) * Real.exp (x c)) := by
        apply condSum_le
        intro c
        rw [← Real.exp_add, ← Real.exp_add]
        apply Real.exp_le_exp.mpr
        have := h c
        linarith
    _ = Real.exp (x C + d C) * condSum (fun c => Real.exp (x c)) := by
        rw [condSum_mul]

/-! Aggregator lemmas. -/

/-- The aggregator is the prior plus the mapped contribution sum over the
feature declaration list. -/
lemma aggregate_eq_sum (m : LikelihoodModel) (ev : EvidenceSet)
    (c : Condition) :
    aggregate m ev c =
      m.prior c + (Feature.list.map (fun f => contribution m f c (ev f))).sum := by
  rw [aggregate, foldl_add_eq]

/-- Extending the evidence at one previously unobserved feature adds
exactly that feature's contribution to the aggregated log-odds. -/
lemma aggregate_update (m : LikelihoodModel) (ev : EvidenceSet) (f : Feature)
    (v : EvidenceValue) (c : Condition) (hf : ev f = none) :
    aggregate m (Function.update ev f (some v)) c =
      aggregate m ev c + contribution m f c (some v) := by
  have hnd : Feature.list.Nodup := by decide
  have hall : ∀ g : Feature, g ∈ Feature.list := by decide
  have hmem : f ∈ Feature.list := hall f
  rw [aggregate_eq_sum, aggregate_eq_sum]
  rw [sum_map_change_single (f := f)
    (F := fun g => contribution m g c (Function.update ev f (some v) g))
    (G := fun g => contribution m g c (ev g)) hnd hmem
    (fun x hx => by
      show contribution m x c (Function.update ev f (some v) x) =
        contribution m x c (ev x)
      rw [Function.update_noteq hx])]
  rw [Function.update_same, hf]
  simp [contribution]
  ring

/-! Top-condition lemmas. -/

/-- The top condition attains the maximum probability, and any condition
tying with it has a declaration ordinal at least as large: the lowest
ordinal wins ties. -/
lemma topCondition_spec (p : Condition → ℝ) :
    (∀ c, p c ≤ p (topCondition p)) ∧
    (∀ c, p (topCondition p) ≤ p c →
      Condition.ord (topCondition p) ≤ Condition.ord c) := by
  have hallc : ∀ c : Condition, c ∈ Condition.list := by decide
  have hidx : ∀ c : Condition, Condition.list.indexOf c = Condition.ord c := by
    decide
  cases h : Condition.list.argmax p with
  | none =>
    have : Condition.list = [] := List.argmax_eq_none.mp h
    simp [Condition.list] at this
  | some m =>
    have hm : m ∈ Condition.list.argmax p := Option.mem_def.mpr h
    have htop : topCondition p = m := by
      simp [topCondition, h]
    constructor
    · intro c
      rw [htop]
      exact List.le_of_mem_argmax (hallc c) hm
    · intro c hc
      rw [htop] at hc ⊢
      rw [← hidx m, ← hidx c]
      exact List.index_of_argmax hm (hallc c) hc

/-! Concrete fixtures used by witnesses and counterexamples. -/

/-- A neutral likelihood model: zero weights and priors, unit ranges. -/
def m0 : LikelihoodModel :=
  { weight := fun _ _ => 0, prior := fun _ => 0, ranges := fun _ => (0, 1) }

/-- The spec's example policy thresholds. -/
noncomputable def cfg0 : PolicyConfig :=
  { high := 7/10, test_low := 3/10, test_high := 7/10, low_floor := 35/100,
    margin := 1/10, referral := fun _ => none }

/-- A small valid observation: an eight-year-old with fever. -/
def o0 : PatientObservation :=
  { age := ⟨8, by norm_num⟩, contact_history := false,
    discrete_symptoms := [⟨Feature.Fever, true⟩], continuous_symptoms := [] }

/-- An observation whose age field holds 150, representable in `u8` but
outside the valid range. -/
def obs150 : PatientObservation :=
  { age := ⟨150, by norm_num⟩, contact_history := false,
    discrete_symptoms := [], continuous_symptoms := [] }

/-! Claim theorems. -/

/-- C8: `Feature` is a closed enumeration with exactly 15 variants and
`Condition` a closed enumeration with exactly 8 variants; every value lies
in the listed variant set. -/
theorem feature_condition_closed_enumerations :
    Fintype.card Feature = 15 ∧ Fintype.card Condition = 8 ∧
    Feature.list.length = 15 ∧ Condition.list.length = 8 ∧
    (∀ f : Feature, f ∈ Feature.list) ∧
    (∀ c : Condition, c ∈ Condition.list) ∧
    Feature.list.Nodup ∧ Condition.list.Nodup := by
  refine ⟨by decide, by decide, by decide, by decide, by decide, by decide,
    by decide, by decide⟩

/-- C9: `age` is a `u8`, so `0 ≤ age ≤ 255` holds by construction;
ages 121–255 are representable, and the `[0, 120]` upper bound is enforced
by the encoder's runtime check, which rejects such an observation with
`OutOfRange`. -/
theorem patient_age_u8_bounds :
    (∀ o : PatientObservation, o.age.val ≤ 255) ∧
    (∀ o : PatientObservation, (0 : ℤ) ≤ (o.age.val : ℤ)) ∧
    (∃ o : PatientObservation, 120 < o.age.val ∧ o.age.val ≤ 255 ∧
      ∀ ranges, encode ranges o = Except.error ⟨InvalidReason.OutOfRange⟩) := by
  refine ⟨fun o => Nat.le_of_lt_succ o.age.isLt,
    fun o => Int.ofNat_nonneg _,
    obs150, by decide, by decide, fun ranges => rfl⟩

/-- C10: in `DiagnosisResult`, each map binds at most one value per
condition (by construction), but nothing forces an entry for every
condition: a result with empty maps is constructible. -/
theorem diagnosis_result_maps_partial :
    (∀ (r : DiagnosisResult) (c : Condition) (v w : ℝ),
      r.probabilities c = some v → r.probabilities c = some w → v = w) ∧
    (∀ (r : DiagnosisResult) (c : Condition) (v w : ℝ),
      r.log_odds c = some v → r.log_odds c = some w → v = w) ∧
    (∃ r : DiagnosisResult, (∀ c, r.probabilities c = none) ∧
      (∀ c, r.log_odds c = none)) := by
  refine ⟨fun r c v w hv hw => ?_, fun r c v w hv hw => ?_,
    ⟨⟨fun _ => none, fun _ => none, Recommendation.Watchful, "", ""⟩,
      fun _ => rfl, fun _ => rfl⟩⟩
  · rw [hv] at hw
    exact Option.some.inj hw
  · rw [hv] at hw
    exact Option.some.inj hw

/-- C1: for a valid observation, `evaluate` succeeds and the returned
probabilities are the max-subtracted softmax of the stored log-odds:
every probability is non-negative and they sum to 1 over the eight
conditions, well within the 1e-6 tolerance. -/
theorem evaluate_probabilities_softmax_sum (m : LikelihoodModel)
    (cfg : PolicyConfig) (o : PatientObservation) (ev : EvidenceSet)
    (h : encode m.ranges o = Except.ok ev) :
    ∃ r : DiagnosisResult, evaluate m cfg o = Except.ok r ∧
      (∀ c, r.log_odds c = some ((aggregate m ev c : ℚ) : ℝ)) ∧
      (∀ c, r.probabilities c =
        some (normalizeDist (fun d => ((aggregate m ev d : ℚ) : ℝ)) c)) ∧
      (∀ c q, r.probabilities c = some q → 0 ≤ q) ∧
      |condSum (fun c => (r.probabilities c).getD 0) - 1| ≤ 1 / 1000000 := by
  refine ⟨mkResult m cfg ev, ?_, fun c => rfl, fun c => rfl, ?_, ?_⟩
  · simp [evaluate, h]
  · intro c q hq
    have hq' : q = probs m ev c := by
      have : (mkResult m cfg ev).probabilities c = some (probs m ev c) := rfl
      rw [this] at hq
      exact (Option.some.inj hq).symm
    rw [hq']
    exact normalizeDist_nonneg _ c
  · have hfun : (fun c => ((mkResult m cfg ev).probabilities c).getD 0) =
        normalizeDist (fun d => ((aggregate m ev d : ℚ) : ℝ)) := by
      funext c
      rfl
    rw [hfun, normalizeDist_sum_one]
    norm_num

/-- Witness for C1 at the concrete fixture: the fever observation is valid
and the theorem applies to it. -/
theorem evaluate_probabilities_softmax_sum_witness :
    ∃ r : DiagnosisResult, evaluate m0 cfg0 o0 = Except.ok r ∧
      (∀ c, r.log_odds c =
        some ((aggregate m0 (buildEvidence m0.ranges o0) c : ℚ) : ℝ)) ∧
      (∀ c, r.probabilities c =
        some (normalizeDist
          (fun d => ((aggregate m0 (buildEvidence m0.ranges o0) d : ℚ) : ℝ)) c)) ∧
      (∀ c q, r.probabilities c = some q → 0 ≤ q) ∧
      |condSum (fun c => (r.probabilities c).getD 0) - 1| ≤ 1 / 1000000 :=
  evaluate_probabilities_softmax_sum m0 cfg0 o0 (buildEvidence m0.ranges o0) rfl

/-- C3: `evaluate` is deterministic — equal observations against the same
model and policy give equal results. -/
theorem evaluate_deterministic (m : LikelihoodModel) (cfg : PolicyConfig)
    (o1 o2 : PatientObservation) (h : o1 = o2) :
    evaluate m cfg o1 = evaluate m cfg o2 := by
  rw [h]

/-- Witness for C3 at the concrete fixture. -/
theorem evaluate_deterministic_witness :
    evaluate m0 cfg0 o0 = evaluate m0 cfg0 o0 :=
  evaluate_deterministic m0 cfg0 o0 o0 rfl

/-- C4: the aggregated log-odds equal the prior plus the contribution sum
over exactly the observed features, the fold running in feature
declaration order (ordinals 0 to 14), and the result depends only on the
evidence values, so it is identical across runs on the same input. -/
theorem aggregate_prior_plus_ordered_sum (m : LikelihoodModel)
    (ev : EvidenceSet) (c : Condition) :
    aggregate m ev c = m.prior c +
      ((Feature.list.filter (fun f => (ev f).isSome)).map
        (fun f => contribution m f c (ev f))).sum ∧
    aggregate m ev c = m.prior c +
      (Feature.list.map (fun f => contribution m f c (ev f))).sum ∧
    Feature.list.map Feature.ord = List.range 15 ∧
    (∀ ev2 : EvidenceSet, (∀ f, ev f = ev2 f) →
      aggregate m ev c = aggregate m ev2 c) := by
  refine ⟨?_, aggregate_eq_sum m ev c, by decide,
    fun ev2 h => by rw [show ev = ev2 from funext h]⟩
  have hz : ∀ f ∈ Feature.list, ((ev f).isSome : Bool) = false →
      contribution m f c (ev f) = 0 := by
    intro f _ hf
    cases hev : ev f with
    | none => simp [contribution]
    | some v =>
      rw [hev] at hf
      simp at hf
  rw [aggregate_eq_sum,
    sum_filter_zero (fun f => contribution m f c (ev f))
      (fun f => (ev f).isSome) Feature.list hz]

/-- Bounded-forall negation, specialised to finiteness of continuous
values. -/
lemma not_all_finite_iff (l : List ContinuousSymptom) :
    (¬ ∀ s ∈ l, s.value.isFinite = true) ↔
      (∃ s ∈ l, s.value.isFinite = false) := by
  push_neg
  simp [Bool.not_eq_true]

/-- C2: `evaluate` fails with a typed `InvalidObservation` exactly when the
age exceeds 120, a continuous value is non-finite, or a feature repeats
across the two symptom lists; each sole violation yields its matching
reason, every returned reason implies its violation, and an error excludes
any `DiagnosisResult`. -/
theorem evaluate_rejects_invalid (m : LikelihoodModel) (cfg : PolicyConfig)
    (o : PatientObservation) :
    ((∃ e, evaluate m cfg o = Except.error e) ↔
      (120 < o.age.val ∨
        (∃ s ∈ o.continuous_symptoms, s.value.isFinite = false) ∨
        ¬ (mentionedFeatures o).Nodup)) ∧
    (120 < o.age.val →
      evaluate m cfg o = Except.error ⟨InvalidReason.OutOfRange⟩) ∧
    (¬ 120 < o.age.val →
      (∃ s ∈ o.continuous_symptoms, s.value.isFinite = false) →
      evaluate m cfg o = Except.error ⟨InvalidReason.NonFinite⟩) ∧
    (¬ 120 < o.age.val →
      (∀ s ∈ o.continuous_symptoms, s.value.isFinite = true) →
      ¬ (mentionedFeatures o).Nodup →
      evaluate m cfg o = Except.error ⟨InvalidReason.DuplicateFeature⟩) ∧
    (∀ e, evaluate m cfg o = Except.error e →
      (e.reason = InvalidReason.OutOfRange → 120 < o.age.val) ∧
      (e.reason = InvalidReason.NonFinite →
        ∃ s ∈ o.continuous_symptoms, s.value.isFinite = false) ∧
      (e.reason = InvalidReason.DuplicateFeature →
        ¬ (mentionedFeatures o).Nodup)) ∧
    (∀ e, evaluate m cfg o = Except.error e →
      ∀ r, evaluate m cfg o ≠ Except.ok r) := by
  by_cases h1 : 120 < o.age.val
  · have hev : evaluate m cfg o = Except.error ⟨InvalidReason.OutOfRange⟩ := by
      simp [evaluate, encode, h1]
    refine ⟨iff_of_true ⟨_, hev⟩ (Or.inl h1), fun _ => hev,
      fun hn _ => absurd h1 hn, fun hn _ _ => absurd h1 hn, ?_, ?_⟩
    · intro e he
      have he' : (⟨InvalidReason.OutOfRange⟩ : InvalidObservation) = e :=
        Except.error.inj (hev.symm.trans he)
      refine ⟨fun _ => h1, fun hr => ?_, fun hr => ?_⟩
      · rw [← he'] at hr
        exact absurd hr (by decide)
      · rw [← he'] at hr
        exact absurd hr (by decide)
    · intro e _ r hr
      rw [hev] at hr
      exact Except.noConfusion hr
  · by_cases h2 : ∀ s ∈ o.continuous_symptoms, s.value.isFinite = true
    · by_cases h3 : (mentionedFeatures o).Nodup
      · have hnex : ¬ ∃ s ∈ o.continuous_symptoms, s.value.isFinite = false := by
          rintro ⟨s, hs, hfin⟩
          rw [h2 s hs] at hfin
          exact Bool.noConfusion hfin
        have hev : evaluate m cfg o =
            Except.ok (mkResult m cfg (buildEvidence m.ranges o)) := by
          simp [evaluate, encode, h1, h2, h3, hnex]
        have hnl : ¬ (120 < o.age.val ∨
            (∃ s ∈ o.continuous_symptoms, s.value.isFinite = false) ∨
            ¬ (mentionedFeatures o).Nodup) := by
          rintro (ha | hex | hd)
          · exact h1 ha
          · exact hnex hex
          · exact hd h3
        refine ⟨iff_of_false ?_ hnl, fun ha => absurd ha h1,
          fun _ hex => absurd hex hnex, fun _ _ hd => absurd h3 hd, ?_, ?_⟩
        · rintro ⟨e, he⟩
          rw [hev] at he
          exact Except.noConfusion he
        · intro e he
          rw [hev] at he
          exact Except.noConfusion he
        · intro e he
          rw [hev] at he
          exact Except.noConfusion he
      · have hnex : ¬ ∃ s ∈ o.continuous_symptoms, s.value.isFinite = false := by
          rintro ⟨s, hs, hfin⟩
          rw [h2 s hs] at hfin
          exact Bool.noConfusion hfin
        have hev : evaluate m cfg o =
            Except.error ⟨InvalidReason.DuplicateFeature⟩ := by
          simp [evaluate, encode, h1, h2, h3, hnex]
        refine ⟨iff_of_true ⟨_, hev⟩ (Or.inr (Or.inr h3)),
          fun ha => absurd ha h1, fun _ hex => ?_, fun _ _ _ => hev, ?_, ?_⟩
        · exact absurd ((not_all_finite_iff _).mpr hex) (not_not.mpr h2)
        · intro e he
          have he' : (⟨InvalidReason.DuplicateFeature⟩ : InvalidObservation) = e :=
            Except.error.inj (hev.symm.trans he)
          refine ⟨fun hr => ?_, fun hr => ?_, fun _ => h3⟩
          · rw [← he'] at hr
            exact absurd hr (by decide)
          · rw [← he'] at hr
            exact absurd hr (by decide)
        · intro e _ r hr
          rw [hev] at hr
          exact Except.noConfusion hr
    · have hex : ∃ s ∈ o.continuous_symptoms, s.value.isFinite = false :=
        (not_all_finite_iff _).mp h2
      have hev : evaluate m cfg o = Except.error ⟨InvalidReason.NonFinite⟩ := by
        simp [evaluate, encode, h1, h2]
      refine ⟨iff_of_true ⟨_, hev⟩ (Or.inr (Or.inl hex)),
        fun ha => absurd ha h1, fun _ _ => hev,
        fun _ hall _ => absurd hall h2, ?_, ?_⟩
      · intro e he
        have he' : (⟨InvalidReason.NonFinite⟩ : InvalidObservation) = e :=
          Except.error.inj (hev.symm.trans he)
        refine ⟨fun hr => ?_, fun _ => hex, fun hr => ?_⟩
        · rw [← he'] at hr
          exact absurd hr (by decide)
        · rw [← he'] at hr
          exact absurd hr (by decide)
      · intro e _ r hr
        rw [hev] at hr
        exact Except.noConfusion hr

/-- C5: the policy evaluates its five rules in the listed order, the first
matching rule deciding the outcome (rule 1 gives `PrescribeAntibiotics`,
the fallback gives `Watchful`), and the top-probability condition breaks
ties in favour of the lowest declaration ordinal. -/
theorem recommend_rules_in_order (cfg : PolicyConfig) (p : Condition → ℝ) :
    (∀ c, p c ≤ p (topCondition p)) ∧
    (∀ c, p c = p (topCondition p) →
      Condition.ord (topCondition p) ≤ Condition.ord c) ∧
    ((topCondition p = Condition.StrepThroat ∧
        cfg.high ≤ p (topCondition p)) →
      recommend cfg p = Recommendation.PrescribeAntibiotics) ∧
    (¬ (topCondition p = Condition.StrepThroat ∧
        cfg.high ≤ p (topCondition p)) →
      (cfg.test_low ≤ p Condition.StrepThroat ∧
        p Condition.StrepThroat < cfg.test_high) →
      recommend cfg p = Recommendation.TestForStrep) ∧
    (¬ (topCondition p = Condition.StrepThroat ∧
        cfg.high ≤ p (topCondition p)) →
      ¬ (cfg.test_low ≤ p Condition.StrepThroat ∧
        p Condition.StrepThroat < cfg.test_high) →
      (p (topCondition p) < cfg.low_floor ∧
        p (topCondition p) - secondProb p ≤ cfg.margin) →
      recommend cfg p = Recommendation.ConsiderAlternatives) ∧
    (¬ (topCondition p = Condition.StrepThroat ∧
        cfg.high ≤ p (topCondition p)) →
      ¬ (cfg.test_low ≤ p Condition.StrepThroat ∧
        p Condition.StrepThroat < cfg.test_high) →
      ¬ (p (topCondition p) < cfg.low_floor ∧
        p (topCondition p) - secondProb p ≤ cfg.margin) →
      (∃ c t, cfg.referral c = some t ∧ t < p c) →
      recommend cfg p = Recommendation.ReferSpecialist) ∧
    (¬ (topCondition p = Condition.StrepThroat ∧
        cfg.high ≤ p (topCondition p)) →
      ¬ (cfg.test_low ≤ p Condition.StrepThroat ∧
        p Condition.StrepThroat < cfg.test_high) →
      ¬ (p (topCondition p) < cfg.low_floor ∧
        p (topCondition p) - secondProb p ≤ cfg.margin) →
      ¬ (∃ c t, cfg.referral c = some t ∧ t < p c) →
      recommend cfg p = Recommendation.Watchful) := by
  obtain ⟨hle, hord⟩ := topCondition_spec p
  refine ⟨hle, fun c hc => hord c (le_of_eq hc.symm), ?_, ?_, ?_, ?_, ?_⟩
  · intro h
    rw [recommend, if_pos h]
  · intro h1 h2
    rw [recommend, if_neg h1, if_pos h2]
  · intro h1 h2 h3
    rw [recommend, if_neg h1, if_neg h2, if_pos h3]
  · intro h1 h2 h3 h4
    rw [recommend, if_neg h1, if_neg h2, if_neg h3, if_pos h4]
  · intro h1 h2 h3 h4
    rw [recommend, if_neg h1, if_neg h2, if_neg h3, if_neg h4]

/-- The evidence set with nothing observed. -/
def evEmpty : EvidenceSet := fun _ => none

/-- Model for the C6 counterexample: Fever contributes 1 to StrepThroat
but 5 to CommonCold; everything else is neutral. -/
def mCx : LikelihoodModel :=
  { weight := fun f c =>
      if f = Feature.Fever ∧ c = Condition.StrepThroat then 1
      else if f = Feature.Fever ∧ c = Condition.CommonCold then 5
      else 0,
    prior := fun _ => 0,
    ranges := fun _ => (0, 1) }

/-- The counterexample's extended evidence set: Fever observed present. -/
def evFever : EvidenceSet :=
  Function.update evEmpty Feature.Fever (some EvidenceValue.present)

/-- C6 counterexample: adding a Fever observation whose contribution to
StrepThroat is strictly positive does strictly increase StrepThroat's
log-odds, yet its renormalized probability strictly decreases, because the
same feature contributes even more to CommonCold. -/
theorem added_evidence_can_lower_probability :
    evEmpty Feature.Fever = none ∧
    evFever = Function.update evEmpty Feature.Fever (some EvidenceValue.present) ∧
    0 < contribution mCx Feature.Fever Condition.StrepThroat
      (some EvidenceValue.present) ∧
    aggregate mCx evEmpty Condition.StrepThroat <
      aggregate mCx evFever Condition.StrepThroat ∧
    probs mCx evFever Condition.StrepThroat <
      probs mCx evEmpty Condition.StrepThroat := by
  have hagg0 : ∀ c, aggregate mCx evEmpty c = 0 := by
    intro c
    simp [aggregate, Feature.list, contribution, evEmpty, mCx]
  have hx0 : ∀ c, ((aggregate mCx evEmpty c : ℚ) : ℝ) = 0 := by
    intro c
    rw [hagg0 c]
    norm_num
  have haggS : aggregate mCx evFever Condition.StrepThroat = 1 := by
    simp [aggregate, Feature.list, contribution, evFever, evEmpty,
      Function.update, mCx]
  refine ⟨rfl, rfl, by simp [contribution, mCx], ?_, ?_⟩
  · rw [hagg0 Condition.StrepThroat, haggS]
    norm_num
  have hE : probs mCx evEmpty Condition.StrepThroat = 1 / 8 := by
    rw [probs, normalizeDist_eq, condSum_unfold]
    simp only [hx0, Real.exp_zero]
    norm_num
  have hS : ((aggregate mCx evFever Condition.StrepThroat : ℚ) : ℝ) = 1 := by
    rw [haggS]
    norm_num
  have hV : ((aggregate mCx evFever Condition.ViralPharyngitis : ℚ) : ℝ) = 0 := by
    simp [aggregate, Feature.list, contribution, evFever, evEmpty,
      Function.update, mCx]
  have hIM : ((aggregate mCx evFever Condition.InfectiousMono : ℚ) : ℝ) = 0 := by
    simp [aggregate, Feature.list, contribution, evFever, evEmpty,
      Function.update, mCx]
  have hSF : ((aggregate mCx evFever Condition.ScarletFever : ℚ) : ℝ) = 0 := by
    simp [aggregate, Feature.list, contribution, evFever, evEmpty,
      Function.update, mCx]
  have hC19 : ((aggregate mCx evFever Condition.Covid19 : ℚ) : ℝ) = 0 := by
    simp [aggregate, Feature.list, contribution, evFever, evEmpty,
      Function.update, mCx]
  have hAR : ((aggregate mCx evFever Condition.AllergicRhinitis : ℚ) : ℝ) = 0 := by
    simp [aggregate, Feature.list, contribution, evFever, evEmpty,
      Function.update, mCx]
  have hIF : ((aggregate mCx evFever Condition.Influenza : ℚ) : ℝ) = 0 := by
    simp [aggregate, Feature.list, contribution, evFever, evEmpty,
      Function.update, mCx]
  have hCC : ((aggregate mCx evFever Condition.CommonCold : ℚ) : ℝ) = 5 := by
    simp [aggregate, Feature.list, contribution, evFever, evEmpty,
      Function.update, mCx]
  rw [hE, probs, normalizeDist_eq, condSum_unfold]
  simp only [hV, hS, hIM, hSF, hC19, hAR, hIF, hCC, Real.exp_zero]
  have e1g : (27 / 10 : ℝ) < Real.exp 1 := by
    nlinarith [Real.exp_one_gt_d9]
  have e1l : Real.exp 1 < 3 := by
    nlinarith [Real.exp_one_lt_d9]
  have e3 : Real.exp 3 = Real.exp 1 * Real.exp 1 * Real.exp 1 := by
    rw [show (3 : ℝ) = 1 + 1 + 1 from by norm_num, Real.exp_add, Real.exp_add]
  have e3g : (15 : ℝ) < Real.exp 3 := by
    have hsq : (0 : ℝ) < (Real.exp 1 - 27 / 10) * (Real.exp 1 - 27 / 10) :=
      mul_pos (by linarith) (by linarith)
    rw [e3]
    nlinarith [hsq, e1g]
  have e5g : (15 : ℝ) < Real.exp 5 :=
    lt_trans e3g (Real.exp_lt_exp.mpr (by norm_num))
  have hden : (0 : ℝ) < 1 + Real.exp 1 + 1 + 1 + 1 + 1 + 1 + Real.exp 5 := by
    positivity
  rw [div_lt_div_iff₀ hden (by norm_num : (0:ℝ) < 8)]
  linarith

/-- C6 amended: adding one feature observation with a strictly positive
contribution to condition C strictly increases C's log-odds, and — when
that feature's contribution to C is at least its contribution to every
other condition — does not decrease C's probability after
renormalization. -/
theorem aggregate_extend_monotone (m : LikelihoodModel) (ev : EvidenceSet)
    (f : Feature) (v : EvidenceValue) (C : Condition)
    (hf : ev f = none)
    (hpos : 0 < contribution m f C (some v))
    (hmax : ∀ c, contribution m f c (some v) ≤ contribution m f C (some v)) :
    aggregate m ev C < aggregate m (Function.update ev f (some v)) C ∧
    probs m ev C ≤ probs m (Function.update ev f (some v)) C := by
  constructor
  · rw [aggregate_update m ev f v C hf]
    linarith
  · have hx : (fun c => ((aggregate m (Function.update ev f (some v)) c : ℚ) : ℝ)) =
        fun c => ((aggregate m ev c : ℚ) : ℝ) +
          ((contribution m f c (some v) : ℚ) : ℝ) := by
      funext c
      rw [aggregate_update m ev f v c hf]
      push_cast
      ring
    rw [probs, probs, hx]
    apply normalizeDist_mono
    intro c
    exact_mod_cast hmax c

/-- Model for the amended theorem's witness: every feature contributes 1
to every condition. -/
def m1 : LikelihoodModel :=
  { weight := fun _ _ => 1, prior := fun _ => 0, ranges := fun _ => (0, 1) }

/-- Witness for the amended C6 theorem at a concrete input. -/
theorem aggregate_extend_monotone_witness :
    aggregate m1 evEmpty Condition.StrepThroat <
      aggregate m1 (Function.update evEmpty Feature.Fever
        (some EvidenceValue.present)) Condition.StrepThroat ∧
    probs m1 evEmpty Condition.StrepThroat ≤
      probs m1 (Function.update evEmpty Feature.Fever
        (some EvidenceValue.present)) Condition.StrepThroat :=
  aggregate_extend_monotone m1 evEmpty Feature.Fever EvidenceValue.present
    Condition.StrepThroat rfl (by decide)
    (by decide :
      ∀ c, contribution m1 Feature.Fever c (some EvidenceValue.present) ≤
        contribution m1 Feature.Fever Condition.StrepThroat
          (some EvidenceValue.present))

/-- C7: the explanation of a valid observation's result is rendered from
the ranked feature list, and every feature in that list is observed in the
evidence set encoded from the observation — no outside feature appears. -/
theorem explanation_features_observed (m : LikelihoodModel)
    (cfg : PolicyConfig) (o : PatientObservation) (ev : EvidenceSet)
    (h : encode m.ranges o = Except.ok ev) :
    ∃ r : DiagnosisResult, evaluate m cfg o = Except.ok r ∧
      r.explanation =
        renderExplain (explainList m ev (topCondition (probs m ev))) ∧
      ∀ q ∈ explainList m ev (topCondition (probs m ev)),
        (ev q.1).isSome = true := by
  refine ⟨mkResult m cfg ev, by simp [evaluate, h], rfl, ?_⟩
  intro q hq
  simp only [explainList] at hq
  obtain ⟨f, hf, rfl⟩ := List.mem_map.mp hq
  have hsort : f ∈ (Feature.list.filter (fun g => (ev g).isSome)).insertionSort
      (rankRel m ev (topCondition (probs m ev))) :=
    List.mem_of_mem_take hf
  have hfil : f ∈ Feature.list.filter (fun g => (ev g).isSome) :=
    (List.mem_insertionSort _).mp hsort
  exact (List.mem_filter.mp hfil).2

/-- Witness for C7 at the concrete fixture. -/
theorem explanation_features_observed_witness :
    ∃ r : DiagnosisResult, evaluate m0 cfg0 o0 = Except.ok r ∧
      r.explanation =
        renderExplain (explainList m0 (buildEvidence m0.ranges o0)
          (topCondition (probs m0 (buildEvidence m0.ranges o0)))) ∧
      ∀ q ∈ explainList m0 (buildEvidence m0.ranges o0)
          (topCondition (probs m0 (buildEvidence m0.ranges o0))),
        ((buildEvidence m0.ranges o0) q.1).isSome = true :=
  explanation_features_observed m0 cfg0 o0 (buildEvidence m0.ranges o0) rfl
